import Mathlib

/-!
# x64asm: label registry (`src/label.h`) and operand sets (`src/code/op_set.h`)

A shallow embedding of the two headers.  The three static members of
`x64asm::Label` become an explicit `Registry` value that every constructor and
query receives and returns.  `uint64_t` values are natural numbers, and the
post-increment `next_val_++` is taken modulo `2 ^ 64`.  `std::map` is a finite
list of entries with `find`, `operator[]` and assignment through `operator[]`.
A call that contains `assert(c)` ends in an `Outcome`: with assertions
compiled in, a false `c` aborts the process; with `NDEBUG` the statement is
empty and the call goes on.
-/

namespace x64asm

/-- Number of values of a `uint64_t`. -/
def UINT64_MOD : Nat := 2 ^ 64

/-- A `std::map<K, V>`: a finite collection of entries, at most one per key. -/
abbrev StdMap (K V : Type) := List (K × V)

namespace StdMap

/-- `m.find(k)`: the mapped value, or `none` for `m.end()`. -/
def find {K V : Type} [DecidableEq K] : StdMap K V → K → Option V
  | [], _ => none
  | (k', v) :: m, k => if k' = k then some v else find m k

/-- `m[k] = v`: overwrite the value of an existing key, insert otherwise. -/
def assign {K V : Type} [DecidableEq K] : StdMap K V → K → V → StdMap K V
  | [], k, v => [(k, v)]
  | (k', v') :: m, k, v =>
    if k' = k then (k', v) :: m else (k', v') :: assign m k v

/-- `m[k]` as an rvalue: the mapped value; a missing key is first inserted
with the value-initialised `dflt`. -/
def index {K V : Type} [DecidableEq K] (m : StdMap K V) (k : K) (dflt : V) :
    V × StdMap K V :=
  match find m k with
  | some v => (v, m)
  | none => (dflt, assign m k dflt)

end StdMap

/-- The static members of `Label`: `label2val_`, `val2label_`, `next_val_`. -/
structure Registry where
  label2val_ : StdMap String Nat
  val2label_ : StdMap Nat String
  next_val_ : Nat
deriving DecidableEq, Repr

/-- Modelled from the spec: the definitions of the static members (the
translation unit of `label.h`) are not in the source; the spec's initial
registry has empty tables and counter 0. -/
def Registry.init : Registry :=
  { label2val_ := [], val2label_ := [], next_val_ := 0 }

/-- The structured failures the specification names; `label.h` has no
statement that produces one. -/
inductive SpecError where
  | TextUnavailable : SpecError
  | UnsupportedOperation : SpecError
deriving DecidableEq, Repr

/-- How a call ends: it returns a value, a failed `assert` aborts the
process, or it reports a structured failure to its caller. -/
inductive Outcome (α : Type) where
  | returned : α → Outcome α
  | aborted : Outcome α
  | failed : SpecError → Outcome α
deriving DecidableEq, Repr

/-- A `Label` value: only the identity `val_`. -/
structure Label where
  val_ : Nat
deriving DecidableEq, Repr

namespace Label

/-- `Label()`: `val_ = next_val_++`. -/
def new_anonymous (st : Registry) : Label × Registry :=
  (⟨st.next_val_⟩, { st with next_val_ := (st.next_val_ + 1) % UINT64_MOD })

/-- `Label(const std::string& s)`. -/
def new_named (s : String) (st : Registry) : Label × Registry :=
  match StdMap.find st.label2val_ s with
  | none =>
    let val := st.next_val_
    (⟨val⟩,
     { label2val_ := StdMap.assign st.label2val_ s val
       val2label_ := StdMap.assign st.val2label_ val s
       next_val_ := (st.next_val_ + 1) % UINT64_MOD })
  | some v => (⟨v⟩, st)

/-- Copy and move constructors: `val_ = rhs.val_`. -/
def copy (rhs : Label) : Label := ⟨rhs.val_⟩

/-- `check()`: `val2label_.find(val_) != val2label_.end()`. -/
def check (l : Label) (st : Registry) : Bool :=
  (StdMap.find st.val2label_ l.val_).isSome

/-- `get_text()`: `assert(check()); return val2label_[val_];`.  With
`ndebug = false` the assertion is compiled in and aborts the process when
`check()` is false; with `ndebug = true` (`NDEBUG`) it is no statement.  The
returned value is the text together with the registry after the `operator[]`
access. -/
def get_text (ndebug : Bool) (l : Label) (st : Registry) :
    Outcome (String × Registry) :=
  if !ndebug && !l.check st then Outcome.aborted
  else
    let r := StdMap.index st.val2label_ l.val_ ""
    Outcome.returned (r.1, { st with val2label_ := r.2 })

/-- `write_att(os)`: `assert(check()); return (os << val2label_[val_]);`, the
assertion as in `get_text`.  The sink `os` is the text written to it so
far. -/
def write_att (ndebug : Bool) (l : Label) (st : Registry) (os : String) :
    Outcome (String × Registry) :=
  if !ndebug && !l.check st then Outcome.aborted
  else
    let r := StdMap.index st.val2label_ l.val_ ""
    Outcome.returned (os ++ r.1, { st with val2label_ := r.2 })

/-- `operator<`: `val_ < rhs.val_`. -/
def lt (a rhs : Label) : Bool := decide (a.val_ < rhs.val_)

/-- `operator==`: `val_ == rhs.val_`. -/
def eq (a rhs : Label) : Bool := decide (a.val_ = rhs.val_)

/-- `operator!=`: `!(*this == rhs)`. -/
def ne (a rhs : Label) : Bool := !(a.eq rhs)

/-- `operator uint64_t()`: `return val_;`. -/
def toUInt64 (a : Label) : Nat := a.val_

/-- `hash()`: `return val_;`; `size_t` is the 64-bit unsigned type of the
x86-64 target, so the conversion from `uint64_t` keeps the value. -/
def hash (a : Label) : Nat := a.val_

/-- `std::hash<x64asm::Label>::operator()`: `return l.hash();`. -/
def std_hash (l : Label) : Nat := l.hash

end Label

/-- A `std::istream` as far as `read_att` can observe it: the unread input
and the three state flags. -/
structure IStream where
  unread : String
  eofbit : Bool
  failbit : Bool
  badbit : Bool
deriving DecidableEq, Repr

/-- `is.setstate(std::ios::failbit)`: the fail flag is added to the state. -/
def IStream.setstate_failbit (is : IStream) : IStream :=
  { is with failbit := true }

/-- `operator!` / `fail()` of the stream: `failbit` or `badbit` is set. -/
def IStream.fail (is : IStream) : Bool := is.failbit || is.badbit

/-- `read_att(is)`: `is.setstate(std::ios::failbit); return is;`.  The result
is the stream, the label and the registry after the call. -/
def Label.read_att (l : Label) (st : Registry) (is : IStream) :
    IStream × Label × Registry :=
  (is.setstate_failbit, l, st)

/-- One constructor call on the registry. -/
inductive Op where
  | anonymous : Op
  | named : String → Op
deriving DecidableEq, Repr

/-- The label returned by a call and the registry it leaves. -/
def Op.apply : Op → Registry → Label × Registry
  | .anonymous, st => Label.new_anonymous st
  | .named s, st => Label.new_named s st

/-- Does the call take a value from the counter? -/
def Op.allocates : Op → Registry → Bool
  | .anonymous, _ => true
  | .named s, st => (StdMap.find st.label2val_ s).isNone

/-- Registry after a sequence of calls. -/
def run : Registry → List Op → Registry
  | st, [] => st
  | st, op :: ops => run (op.apply st).2 ops

/-- Labels returned by a sequence of calls, in call order. -/
def labels : Registry → List Op → List Label
  | _, [] => []
  | st, op :: ops => (op.apply st).1 :: labels (op.apply st).2 ops

/-- Labels returned by the `Label(const std::string&)` calls of a sequence. -/
def namedLabels : Registry → List Op → List Label
  | _, [] => []
  | st, .anonymous :: ops => namedLabels (Label.new_anonymous st).2 ops
  | st, .named s :: ops =>
    (Label.new_named s st).1 :: namedLabels (Label.new_named s st).2 ops

/-- Number of calls of a sequence that take a value from the counter. -/
def allocs : Registry → List Op → Nat
  | _, [] => 0
  | st, op :: ops =>
    (if op.allocates st then 1 else 0) + allocs (op.apply st).2 ops

/-- States reachable from the initial registry. -/
def Reachable (st : Registry) : Prop := ∃ ops, run Registry.init ops = st

/-- Every identity stored in the name table is a key of the text table. -/
def NamesClosed (st : Registry) : Prop :=
  ∀ s v, StdMap.find st.label2val_ s = some v →
    (StdMap.find st.val2label_ v).isSome = true

/-- The registry after `n` allocations, none of which wrapped the counter:
the counter is `n`, the two tables are inverse to each other, and every
identity with a name is below `n`. -/
structure Consistent (n : Nat) (st : Registry) : Prop where
  le : n ≤ UINT64_MOD
  next : st.next_val_ = n % UINT64_MOD
  inverse : ∀ s v, StdMap.find st.label2val_ s = some v ↔
    StdMap.find st.val2label_ v = some s
  bound : ∀ v s, StdMap.find st.val2label_ v = some s → v < n

end x64asm

namespace x64

/-- `OpSet`: the single data member `int x_`, a 32-bit two's-complement
word. -/
structure OpSet where
  x_ : Int
deriving DecidableEq, Repr

/-- The object that a returned `OpSet&` designates: the receiver `*this` or
the argument `os`. -/
inductive Ref where
  | receiver : Ref
  | argument : Ref
deriving DecidableEq, Repr

/-- The two objects of a compound assignment after the call, and the object
its returned reference designates. -/
structure Compound where
  receiver : OpSet
  argument : OpSet
  returned : Ref
deriving DecidableEq, Repr

/-- The set seen through the returned reference. -/
def Compound.value (c : Compound) : OpSet :=
  match c.returned with
  | Ref.receiver => c.receiver
  | Ref.argument => c.argument

namespace OpSet

/-- `operator~`: `return *this;`. -/
def compl (a : OpSet) : OpSet := a

/-- `operator&`: `return *this;`. -/
def and (a _os : OpSet) : OpSet := a

/-- `operator|`: `return *this;`. -/
def or (a _os : OpSet) : OpSet := a

/-- `operator^`: `return *this;`. -/
def xor (a _os : OpSet) : OpSet := a

/-- `operator-`: `return *this;`. -/
def sub (a _os : OpSet) : OpSet := a

/-- `operator&=`: `return *this;` with no statement before it. -/
def and_assign (a os : OpSet) : Compound :=
  { receiver := a, argument := os, returned := Ref.receiver }

/-- `operator|=`: `return *this;` with no statement before it. -/
def or_assign (a os : OpSet) : Compound :=
  { receiver := a, argument := os, returned := Ref.receiver }

/-- `operator^=`: `return *this;` with no statement before it. -/
def xor_assign (a os : OpSet) : Compound :=
  { receiver := a, argument := os, returned := Ref.receiver }

/-- `operator-=`: `return *this;` with no statement before it. -/
def sub_assign (a os : OpSet) : Compound :=
  { receiver := a, argument := os, returned := Ref.receiver }

/-- `operator==`: `return true;`. -/
def eq (_a _os : OpSet) : Bool := true

/-- `operator!=`: `return true;`. -/
def ne (_a _os : OpSet) : Bool := true

/-- The bit vector held by an operand set: the 32 bits of `x_`. -/
def bits (a : OpSet) : Nat := (a.x_ % 2 ^ 32).toNat

end OpSet

/-! The set algebra in the words of the specification, on 32-bit vectors. -/
namespace Spec

/-- Spec: the universe has all bits set. -/
def univ : Nat := 2 ^ 32 - 1

/-- Spec: the all-zero value is the empty set. -/
def empty : Nat := 0

/-- Spec: complement is the bit-flip over the full fixed-width universe. -/
def complement (v : Nat) : Nat := v ^^^ univ

/-- Spec: union is the bitwise OR. -/
def union (v w : Nat) : Nat := v ||| w

/-- Spec: intersect is the bitwise AND. -/
def intersect (v w : Nat) : Nat := v &&& w

/-- Spec: symmetric difference is the bitwise XOR. -/
def symmetric_difference (v w : Nat) : Nat := v ^^^ w

/-- Spec: difference is the bitwise AND-NOT. -/
def difference (v w : Nat) : Nat := v &&& complement w

end Spec

end x64

namespace x64asm

/-! ## Facts about the map model -/

theorem StdMap.find_assign {K V : Type} [DecidableEq K] (m : StdMap K V)
    (k : K) (v : V) (k' : K) :
    StdMap.find (StdMap.assign m k v) k' =
      if k = k' then some v else StdMap.find m k' := by
  induction m with
  | nil => simp [StdMap.assign, StdMap.find]
  | cons e m ih =>
    obtain ⟨a, b⟩ := e
    by_cases h : a = k
    · subst h
      by_cases h' : a = k' <;> simp [StdMap.assign, StdMap.find, h']
    · by_cases h' : a = k'
      · subst h'
        have hk : ¬ k = a := fun e => h e.symm
        simp [StdMap.assign, StdMap.find, h, hk]
      · simp [StdMap.assign, StdMap.find, h, h', ih]

theorem StdMap.index_of_find {K V : Type} [DecidableEq K] (m : StdMap K V)
    (k : K) (dflt v : V) (h : StdMap.find m k = some v) :
    StdMap.index m k dflt = (v, m) := by
  simp [StdMap.index, h]

/-! ## Single calls -/

theorem new_named_present (s : String) (st : Registry) (v : Nat)
    (h : StdMap.find st.label2val_ s = some v) :
    Label.new_named s st = (⟨v⟩, st) := by
  simp [Label.new_named, h]

theorem new_named_absent (s : String) (st : Registry)
    (h : StdMap.find st.label2val_ s = none) :
    Label.new_named s st =
      (⟨st.next_val_⟩,
       { label2val_ := StdMap.assign st.label2val_ s st.next_val_
         val2label_ := StdMap.assign st.val2label_ st.next_val_ s
         next_val_ := (st.next_val_ + 1) % UINT64_MOD }) := by
  simp [Label.new_named, h]

/-- After `Label(s)` the name table maps `s` to the returned identity. -/
theorem new_named_records (s : String) (st : Registry) :
    StdMap.find (Label.new_named s st).2.label2val_ s =
      some (Label.new_named s st).1.val_ := by
  cases h : StdMap.find st.label2val_ s with
  | none => simp [new_named_absent s st h, StdMap.find_assign]
  | some v => simp [new_named_present s st v h, h]

/-- No call changes the identity recorded for a registered name. -/
theorem apply_keeps_name (op : Op) (st : Registry) (s : String) (v : Nat)
    (h : StdMap.find st.label2val_ s = some v) :
    StdMap.find (op.apply st).2.label2val_ s = some v := by
  cases op with
  | anonymous => simpa [Op.apply, Label.new_anonymous] using h
  | named t =>
    cases ht : StdMap.find st.label2val_ t with
    | some w => simpa [Op.apply, new_named_present t st w ht] using h
    | none =>
      have hne : ¬ t = s := by
        intro e
        subst e
        rw [h] at ht
        cases ht
      simp [Op.apply, new_named_absent t st ht, StdMap.find_assign, hne, h]

theorem run_keeps_name (ops : List Op) (st : Registry) (s : String) (v : Nat)
    (h : StdMap.find st.label2val_ s = some v) :
    StdMap.find (run st ops).label2val_ s = some v := by
  induction ops generalizing st with
  | nil => simpa [run] using h
  | cons op ops ih => exact ih _ (apply_keeps_name op st s v h)

theorem run_append (st : Registry) (xs ys : List Op) :
    run st (xs ++ ys) = run (run st xs) ys := by
  induction xs generalizing st with
  | nil => rfl
  | cons op xs ih => simp [run, ih]

theorem labels_append (st : Registry) (xs ys : List Op) :
    labels st (xs ++ ys) = labels st xs ++ labels (run st xs) ys := by
  induction xs generalizing st with
  | nil => rfl
  | cons op xs ih => simp [run, labels, ih]

theorem allocs_append (st : Registry) (xs ys : List Op) :
    allocs st (xs ++ ys) = allocs st xs + allocs (run st xs) ys := by
  induction xs generalizing st with
  | nil => simp [allocs, run]
  | cons op xs ih => simp [run, allocs, ih, Nat.add_assoc]

/-! ## The registry while the counter has not wrapped -/

theorem consistent_init : Consistent 0 Registry.init := by
  refine ⟨by simp [UINT64_MOD], by simp [Registry.init], ?_, ?_⟩
  · intro s v
    simp [Registry.init, StdMap.find]
  · intro v s
    simp [Registry.init, StdMap.find]

theorem consistent_next_lt {n : Nat} {st : Registry} (h : Consistent n st)
    (hn : n < UINT64_MOD) : st.next_val_ = n := by
  rw [h.next, Nat.mod_eq_of_lt hn]

theorem apply_consistent (op : Op) (st : Registry) (n : Nat)
    (h : Consistent n st)
    (hn : n + (if op.allocates st then 1 else 0) ≤ UINT64_MOD) :
    Consistent (n + (if op.allocates st then 1 else 0)) (op.apply st).2 ∧
      (op.apply st).1.val_ < n + (if op.allocates st then 1 else 0) := by
  cases op with
  | anonymous =>
    have hn' : n < UINT64_MOD := by simpa [Op.allocates] using hn
    have hnext := consistent_next_lt h hn'
    simp only [Op.allocates, if_true, Op.apply, Label.new_anonymous]
    refine ⟨⟨hn', by simp [hnext], h.inverse, ?_⟩, by simp [hnext]⟩
    intro v s hv
    exact Nat.lt_succ_of_lt (h.bound v s hv)
  | named t =>
    cases ht : StdMap.find st.label2val_ t with
    | some w =>
      simp only [Op.allocates, ht, Option.isNone_some, Op.apply,
        new_named_present t st w ht, Nat.add_zero]
      exact ⟨h, h.bound w t ((h.inverse t w).1 ht)⟩
    | none =>
      have hn' : n < UINT64_MOD := by simpa [Op.allocates, ht] using hn
      have hnext := consistent_next_lt h hn'
      simp only [Op.allocates, ht, Option.isNone_none, if_true, Op.apply,
        new_named_absent t st ht, hnext]
      refine ⟨⟨hn', rfl, ?_, ?_⟩, Nat.lt_succ_self n⟩
      · intro s v
        simp only [StdMap.find_assign]
        by_cases hts : t = s
        · subst hts
          by_cases hnv : n = v
          · simp [hnv]
          · have : ¬ StdMap.find st.val2label_ v = some t := by
              intro hc
              rw [(h.inverse t v).2 hc] at ht
              cases ht
            simp [hnv, this]
        · by_cases hnv : n = v
          · subst hnv
            have : ¬ StdMap.find st.label2val_ s = some n := by
              intro hc
              exact Nat.lt_irrefl _ (h.bound n s ((h.inverse s n).1 hc))
            simp [hts, this]
          · simp [hts, hnv, h.inverse s v]
      · intro v s
        simp only [StdMap.find_assign]
        by_cases hnv : n = v
        · intro _
          omega
        · simp only [hnv, if_false]
          intro hv
          exact Nat.lt_succ_of_lt (h.bound v s hv)

theorem run_consistent (ops : List Op) (st : Registry) (n : Nat)
    (h : Consistent n st) (hn : n + allocs st ops ≤ UINT64_MOD) :
    Consistent (n + allocs st ops) (run st ops) ∧
      ∀ l ∈ labels st ops, l.val_ < n + allocs st ops := by
  induction ops generalizing st n with
  | nil =>
    simp only [allocs, run, labels, Nat.add_zero]
    exact ⟨h, by simp⟩
  | cons op ops ih =>
    simp only [allocs, ← Nat.add_assoc] at hn ⊢
    have hstep := apply_consistent op st n h (by omega)
    have hrest := ih (op.apply st).2 _ hstep.1 hn
    refine ⟨hrest.1, ?_⟩
    intro l hl
    simp only [labels, List.mem_cons] at hl
    rcases hl with rfl | hl
    · exact Nat.lt_of_lt_of_le hstep.2 (Nat.le_add_right _ _)
    · exact hrest.2 l hl

theorem reach_consistent (ops : List Op)
    (hn : allocs Registry.init ops ≤ UINT64_MOD) :
    Consistent (allocs Registry.init ops) (run Registry.init ops) ∧
      ∀ l ∈ labels Registry.init ops, l.val_ < allocs Registry.init ops := by
  have h := run_consistent ops Registry.init 0 consistent_init (by omega)
  simpa using h

theorem consistent_unnamed {n : Nat} {st : Registry} (h : Consistent n st)
    (v : Nat) (hv : n ≤ v) : StdMap.find st.val2label_ v = none := by
  cases hf : StdMap.find st.val2label_ v with
  | none => rfl
  | some s => exact absurd (h.bound v s hf) (by omega)

theorem apply_keeps_unnamed (op : Op) (st : Registry) (n v : Nat)
    (h : Consistent n st) (hn : n < UINT64_MOD ∨ op.allocates st = false)
    (hv : v < n) (hf : StdMap.find st.val2label_ v = none) :
    StdMap.find (op.apply st).2.val2label_ v = none := by
  cases op with
  | anonymous => simpa [Op.apply, Label.new_anonymous] using hf
  | named t =>
    cases ht : StdMap.find st.label2val_ t with
    | some w => simpa [Op.apply, new_named_present t st w ht] using hf
    | none =>
      have hn' : n < UINT64_MOD := by
        rcases hn with hn | hn
        · exact hn
        · simp [Op.allocates, ht] at hn
      have hnext := consistent_next_lt h hn'
      have hne : ¬ n = v := by omega
      simp [Op.apply, new_named_absent t st ht, StdMap.find_assign, hnext,
        hne, hf]

theorem run_keeps_unnamed (ops : List Op) (st : Registry) (n v : Nat)
    (h : Consistent n st) (hn : n + allocs st ops ≤ UINT64_MOD)
    (hv : v < n) (hf : StdMap.find st.val2label_ v = none) :
    StdMap.find (run st ops).val2label_ v = none := by
  induction ops generalizing st n with
  | nil => simpa [run] using hf
  | cons op ops ih =>
    simp only [allocs, ← Nat.add_assoc] at hn
    have hstep := apply_consistent op st n h (by omega)
    have hcase : n < UINT64_MOD ∨ op.allocates st = false := by
      cases hal : op.allocates st with
      | true =>
        left
        simp only [hal, if_true] at hn
        omega
      | false => exact Or.inr rfl
    have hf' := apply_keeps_unnamed op st n v h hcase hv hf
    exact ih (op.apply st).2 _ hstep.1 hn (by omega) hf'

/-! ## Named identities in every state -/

theorem apply_names_closed (op : Op) (st : Registry) (h : NamesClosed st)
    (l : Label) :
    NamesClosed (op.apply st).2 ∧
      (l.check (op.apply st).2 = true ↔
        l.check st = true ∨ l ∈ namedLabels st [op]) := by
  cases op with
  | anonymous =>
    simp only [Op.apply, Label.new_anonymous, namedLabels, List.not_mem_nil,
      or_false]
    exact ⟨h, Iff.rfl⟩
  | named t =>
    cases ht : StdMap.find st.label2val_ t with
    | some w =>
      simp only [Op.apply, namedLabels, new_named_present t st w ht,
        List.mem_singleton]
      refine ⟨h, ⟨Or.inl, ?_⟩⟩
      rintro (hl | rfl)
      · exact hl
      · exact h t w ht
    | none =>
      simp only [Op.apply, namedLabels, new_named_absent t st ht,
        List.mem_singleton]
      constructor
      · intro s v hsv
        simp only [StdMap.find_assign] at hsv ⊢
        by_cases hts : t = s
        · simp only [hts, if_true, Option.some.injEq] at hsv
          simp [hsv]
        · simp only [hts, if_false] at hsv
          by_cases hnv : st.next_val_ = v
          · simp [hnv]
          · simpa [hnv] using h s v hsv
      · simp only [Label.check, StdMap.find_assign]
        by_cases hnv : st.next_val_ = l.val_
        · obtain ⟨w⟩ := l
          simp only at hnv
          subst hnv
          simp
        · have hl : ¬ l = ⟨st.next_val_⟩ := by
            intro e
            exact hnv (by rw [e])
          simp [hnv, hl]

theorem namedLabels_cons (op : Op) (ops : List Op) (st : Registry) :
    namedLabels st (op :: ops) =
      namedLabels st [op] ++ namedLabels (op.apply st).2 ops := by
  cases op <;> simp [namedLabels, Op.apply]

theorem run_names_closed (ops : List Op) (st : Registry) (h : NamesClosed st)
    (l : Label) :
    NamesClosed (run st ops) ∧
      (l.check (run st ops) = true ↔
        l.check st = true ∨ l ∈ namedLabels st ops) := by
  induction ops generalizing st with
  | nil => simpa [run, namedLabels] using h
  | cons op ops ih =>
    have hstep := apply_names_closed op st h l
    have hrest := ih (op.apply st).2 hstep.1
    refine ⟨hrest.1, ?_⟩
    rw [namedLabels_cons, List.mem_append, run, hrest.2, hstep.2]
    exact or_assoc

theorem names_closed_init : NamesClosed Registry.init := by
  intro s v
  simp [Registry.init, StdMap.find]

/-! ## The counter after `2 ^ 64` allocations -/

theorem run_anonymous_replicate (n : Nat) (st : Registry)
    (h : st.next_val_ < UINT64_MOD) :
    run st (List.replicate n Op.anonymous) =
      { st with next_val_ := (st.next_val_ + n) % UINT64_MOD } := by
  induction n generalizing st with
  | zero =>
    cases st
    simp only [List.replicate_zero, run, Nat.add_zero]
    rw [Nat.mod_eq_of_lt h]
  | succ n ih =>
    have hlt : (st.next_val_ + 1) % UINT64_MOD < UINT64_MOD :=
      Nat.mod_lt _ (by simp [UINT64_MOD])
    rw [List.replicate_succ, run]
    simp only [Op.apply, Label.new_anonymous]
    rw [ih _ hlt]
    simp only [Nat.mod_add_mod]
    rw [Nat.add_assoc, Nat.add_comm 1 n]

theorem run_wrap_anonymous :
    run Registry.init
        (Op.anonymous :: List.replicate (UINT64_MOD - 1) Op.anonymous) =
      Registry.init := by
  have h1 : (Op.anonymous.apply Registry.init).2 = ⟨[], [], 1⟩ := by decide
  rw [run, h1, run_anonymous_replicate _ _ (by decide)]
  decide

theorem run_wrap_named :
    run Registry.init
        (Op.named "a" :: List.replicate (UINT64_MOD - 1) Op.anonymous) =
      ⟨[("a", 0)], [(0, "a")], 0⟩ := by
  have h1 : ((Op.named "a").apply Registry.init).2 =
      ⟨[("a", 0)], [(0, "a")], 1⟩ := by decide
  rw [run, h1, run_anonymous_replicate _ _ (by decide)]
  decide

theorem run_wrap_renamed :
    run Registry.init
        (Op.named "a" :: List.replicate (UINT64_MOD - 1) Op.anonymous ++
          [Op.named "b"]) =
      ⟨[("a", 0), ("b", 0)], [(0, "b")], 1⟩ := by
  rw [run_append, run_wrap_named]
  decide

/-! ## Claims on the label registry -/

/-- C1: in every registry state, `Label(s)` called again after any sequence
of constructor calls returns the identity of the first `Label(s)` call. -/
theorem new_named_same_identity (st : Registry) (s : String)
    (ops : List Op) :
    (Label.new_named s (run (Label.new_named s st).2 ops)).1 =
      (Label.new_named s st).1 := by
  have h := run_keeps_name ops _ s _ (new_named_records s st)
  rw [new_named_present s _ _ h]

/-- C2, as stated, fails: after `Label("a")` and `2 ^ 64 - 1` anonymous
labels the counter is 0 again, and `Label("a")`, `Label("b")` both return
identity 0. -/
theorem new_named_collision_after_wrap :
    "a" ≠ "b" ∧
      (Label.new_named "a" (run Registry.init
        (Op.named "a" :: List.replicate (UINT64_MOD - 1) Op.anonymous))).1 =
      (Label.new_named "b" (Label.new_named "a" (run Registry.init
        (Op.named "a" :: List.replicate (UINT64_MOD - 1) Op.anonymous))).2).1 := by
  rw [run_wrap_named]
  decide

/-- C2 (amended): when the whole call sequence, the two calls included, takes
at most `2 ^ 64` values from the counter, `Label(s)` and `Label(t)` with
`s ≠ t` return different identities, registered before or not. -/
theorem new_named_injective (ops : List Op) (s t : String) (hst : s ≠ t)
    (hn : allocs Registry.init (ops ++ [Op.named s, Op.named t]) ≤
      UINT64_MOD) :
    (Label.new_named s (run Registry.init ops)).1 ≠
      (Label.new_named t (Label.new_named s (run Registry.init ops)).2).1 := by
  have hc := (reach_consistent _ hn).1
  rw [run_append] at hc
  simp only [run, Op.apply] at hc
  generalize run Registry.init ops = st at hc ⊢
  have hs := apply_keeps_name (Op.named t) _ s _ (new_named_records s st)
  have ht := new_named_records t (Label.new_named s st).2
  simp only [Op.apply] at hs
  intro e
  rw [← e] at ht
  have h1 := (hc.inverse _ _).1 hs
  have h2 := (hc.inverse _ _).1 ht
  rw [h1] at h2
  exact hst (Option.some.inj h2)

theorem new_named_injective_witness :
    ("foo" ≠ "bar" ∧
      allocs Registry.init ([] ++ [Op.named "foo", Op.named "bar"]) ≤
        UINT64_MOD) ∧
    (Label.new_named "foo" (run Registry.init [])).1 ≠
      (Label.new_named "bar"
        (Label.new_named "foo" (run Registry.init [])).2).1 :=
  ⟨⟨by decide, by decide⟩,
   new_named_injective [] "foo" "bar" (by decide) (by decide)⟩

/-- C3, as stated, fails: after `2 ^ 64` anonymous labels the next anonymous
label has identity 0, the identity of the first one. -/
theorem new_anonymous_reuse_after_wrap :
    (⟨0⟩ : Label) ∈ labels Registry.init
        (Op.anonymous :: List.replicate (UINT64_MOD - 1) Op.anonymous) ∧
      (Label.new_anonymous (run Registry.init
        (Op.anonymous :: List.replicate (UINT64_MOD - 1) Op.anonymous))).1 =
        ⟨0⟩ := by
  rw [run_wrap_anonymous]
  constructor
  · rw [labels]
    exact List.mem_cons_self _ _
  · decide

/-- C3 (amended): when the whole call sequence, the two calls included, takes
at most `2 ^ 64` values from the counter, two `Label()` calls return different
identities, each different from every identity returned before it, and
`check` is false for both labels. -/
theorem new_anonymous_fresh (ops : List Op)
    (hn : allocs Registry.init (ops ++ [Op.anonymous, Op.anonymous]) ≤
      UINT64_MOD) :
    (Label.new_anonymous (run Registry.init ops)).1 ≠
      (Label.new_anonymous
        (Label.new_anonymous (run Registry.init ops)).2).1 ∧
    (∀ l ∈ labels Registry.init ops,
      l ≠ (Label.new_anonymous (run Registry.init ops)).1 ∧
      l ≠ (Label.new_anonymous
        (Label.new_anonymous (run Registry.init ops)).2).1) ∧
    Label.check (Label.new_anonymous (run Registry.init ops)).1
      (Label.new_anonymous
        (Label.new_anonymous (run Registry.init ops)).2).2 = false ∧
    Label.check (Label.new_anonymous
        (Label.new_anonymous (run Registry.init ops)).2).1
      (Label.new_anonymous
        (Label.new_anonymous (run Registry.init ops)).2).2 = false := by
  rw [allocs_append] at hn
  simp only [allocs, Op.allocates, if_true] at hn
  have h0 := reach_consistent ops (by omega)
  have hnext := consistent_next_lt h0.1 (by omega)
  have hlt : allocs Registry.init ops + 1 < UINT64_MOD := by omega
  have hu1 := consistent_unnamed h0.1 (allocs Registry.init ops) (by omega)
  have hu2 := consistent_unnamed h0.1 (allocs Registry.init ops + 1)
    (by omega)
  simp only [Label.new_anonymous, Label.check, hnext, Nat.mod_eq_of_lt hlt,
    hu1, hu2, Option.isSome_none, and_true, ne_eq, Label.mk.injEq]
  refine ⟨by omega, ?_⟩
  intro l hl
  have := h0.2 l hl
  obtain ⟨w⟩ := l
  simp only [Label.mk.injEq] at this ⊢
  omega

theorem new_anonymous_fresh_witness :
    allocs Registry.init
        ([Op.named "L1"] ++ [Op.anonymous, Op.anonymous]) ≤ UINT64_MOD ∧
    ((Label.new_anonymous (run Registry.init [Op.named "L1"])).1 ≠
      (Label.new_anonymous
        (Label.new_anonymous (run Registry.init [Op.named "L1"])).2).1 ∧
    (∀ l ∈ labels Registry.init [Op.named "L1"],
      l ≠ (Label.new_anonymous (run Registry.init [Op.named "L1"])).1 ∧
      l ≠ (Label.new_anonymous
        (Label.new_anonymous (run Registry.init [Op.named "L1"])).2).1) ∧
    Label.check (Label.new_anonymous (run Registry.init [Op.named "L1"])).1
      (Label.new_anonymous
        (Label.new_anonymous (run Registry.init [Op.named "L1"])).2).2 =
      false ∧
    Label.check (Label.new_anonymous
        (Label.new_anonymous (run Registry.init [Op.named "L1"])).2).1
      (Label.new_anonymous
        (Label.new_anonymous (run Registry.init [Op.named "L1"])).2).2 =
      false) :=
  ⟨by decide, new_anonymous_fresh [Op.named "L1"] (by decide)⟩

theorem get_text_of_find (ndebug : Bool) (l : Label) (st : Registry)
    (s : String) (h : StdMap.find st.val2label_ l.val_ = some s) :
    Label.get_text ndebug l st = Outcome.returned (s, st) := by
  simp [Label.get_text, Label.check, h, StdMap.index_of_find _ _ _ _ h]

theorem write_att_of_find (ndebug : Bool) (l : Label) (st : Registry)
    (s os : String) (h : StdMap.find st.val2label_ l.val_ = some s) :
    Label.write_att ndebug l st os = Outcome.returned (os ++ s, st) := by
  simp [Label.write_att, Label.check, h, StdMap.index_of_find _ _ _ _ h]

theorem get_text_unnamed_assert (l : Label) (st : Registry)
    (h : l.check st = false) :
    Label.get_text false l st = Outcome.aborted ∧
      ∀ os, Label.write_att false l st os = Outcome.aborted := by
  simp [Label.get_text, Label.write_att, h]

/-- C4, as stated, fails: after `Label("a")`, `2 ^ 64 - 1` anonymous labels
and `Label("b")`, identity 0 carries the text "b", and the text of
`Label("a")` is "b", with assertions compiled in and without. -/
theorem get_text_renamed_after_wrap :
    Label.get_text false
      (Label.new_named "a" (run Registry.init
        (Op.named "a" :: List.replicate (UINT64_MOD - 1) Op.anonymous ++
          [Op.named "b"]))).1
      (Label.new_named "a" (run Registry.init
        (Op.named "a" :: List.replicate (UINT64_MOD - 1) Op.anonymous ++
          [Op.named "b"]))).2 =
      Outcome.returned ("b", ⟨[("a", 0), ("b", 0)], [(0, "b")], 1⟩) ∧
    Label.get_text true
      (Label.new_named "a" (run Registry.init
        (Op.named "a" :: List.replicate (UINT64_MOD - 1) Op.anonymous ++
          [Op.named "b"]))).1
      (Label.new_named "a" (run Registry.init
        (Op.named "a" :: List.replicate (UINT64_MOD - 1) Op.anonymous ++
          [Op.named "b"]))).2 =
      Outcome.returned ("b", ⟨[("a", 0), ("b", 0)], [(0, "b")], 1⟩) := by
  rw [run_wrap_renamed]
  decide

/-- C4 (amended): when the call sequence, the `Label(s)` call included, takes
at most `2 ^ 64` values from the counter, `get_text` of the label returned by
`Label(s)` returns exactly `s`, and `write_att` appends exactly `s` to the
sink, with assertions compiled in and without; neither changes the
registry. -/
theorem get_text_new_named (ndebug : Bool) (ops : List Op) (s os : String)
    (hn : allocs Registry.init (ops ++ [Op.named s]) ≤ UINT64_MOD) :
    Label.get_text ndebug (Label.new_named s (run Registry.init ops)).1
        (Label.new_named s (run Registry.init ops)).2 =
      Outcome.returned (s, (Label.new_named s (run Registry.init ops)).2) ∧
    Label.write_att ndebug (Label.new_named s (run Registry.init ops)).1
        (Label.new_named s (run Registry.init ops)).2 os =
      Outcome.returned
        (os ++ s, (Label.new_named s (run Registry.init ops)).2) := by
  have hc := (reach_consistent _ hn).1
  rw [run_append] at hc
  simp only [run, Op.apply] at hc
  have hf := (hc.inverse _ _).1 (new_named_records s (run Registry.init ops))
  exact ⟨get_text_of_find _ _ _ _ hf, write_att_of_find _ _ _ _ _ hf⟩

theorem get_text_new_named_witness :
    allocs Registry.init ([Op.named "loop_start"] ++ [Op.named "loop_start"]) ≤
      UINT64_MOD ∧
    (Label.get_text true
        (Label.new_named "loop_start"
          (run Registry.init [Op.named "loop_start"])).1
        (Label.new_named "loop_start"
          (run Registry.init [Op.named "loop_start"])).2 =
      Outcome.returned ("loop_start", (Label.new_named "loop_start"
        (run Registry.init [Op.named "loop_start"])).2) ∧
    Label.write_att true
        (Label.new_named "loop_start"
          (run Registry.init [Op.named "loop_start"])).1
        (Label.new_named "loop_start"
          (run Registry.init [Op.named "loop_start"])).2 "jmp " =
      Outcome.returned ("jmp " ++ "loop_start", (Label.new_named "loop_start"
        (run Registry.init [Op.named "loop_start"])).2)) :=
  ⟨by decide,
   get_text_new_named true [Op.named "loop_start"] "loop_start" "jmp "
     (by decide)⟩

/-- C5, as stated, fails on an unnamed label in each build and after the
counter wraps.  For the first anonymous label `check` is false; with
assertions compiled in `get_text` aborts the process, which is no
`TextUnavailable` reported to the caller, and under `NDEBUG` it returns the
empty text.  After `Label("a")` and `2 ^ 64 - 1` anonymous labels the next
anonymous label has identity 0 and `get_text` returns "a" for it. -/
theorem get_text_anonymous_not_failed :
    Label.check (Label.new_anonymous Registry.init).1
      (Label.new_anonymous Registry.init).2 = false ∧
    (Label.get_text false (Label.new_anonymous Registry.init).1
        (Label.new_anonymous Registry.init).2 = Outcome.aborted ∧
      Label.get_text false (Label.new_anonymous Registry.init).1
        (Label.new_anonymous Registry.init).2 ≠
        Outcome.failed SpecError.TextUnavailable) ∧
    Label.get_text true (Label.new_anonymous Registry.init).1
      (Label.new_anonymous Registry.init).2 =
      Outcome.returned ("", ⟨[], [(0, "")], 1⟩) ∧
    Label.get_text false
      (Label.new_anonymous (run Registry.init
        (Op.named "a" :: List.replicate (UINT64_MOD - 1) Op.anonymous))).1
      (Label.new_anonymous (run Registry.init
        (Op.named "a" :: List.replicate (UINT64_MOD - 1) Op.anonymous))).2 =
      Outcome.returned ("a", ⟨[("a", 0)], [(0, "a")], 1⟩) := by
  rw [run_wrap_named]
  decide

/-- C5 (amended): in every registry state, with assertions compiled in
`get_text` ends in the abort of the failed assertion exactly when `check` is
false; in either build it returns the text recorded for the identity when
`check` is true, and it never reports a structured failure.  When the call
sequence, the `Label()` call included, takes at most `2 ^ 64` values from the
counter, `get_text` with assertions compiled in aborts on the label returned
by `Label()`. -/
theorem get_text_aborts_iff (ops : List Op)
    (hn : allocs Registry.init (ops ++ [Op.anonymous]) ≤ UINT64_MOD) :
    (∀ (l : Label) (st : Registry),
      (Label.get_text false l st = Outcome.aborted ↔
        Label.check l st = false) ∧
      (∀ ndebug s, StdMap.find st.val2label_ l.val_ = some s →
        Label.get_text ndebug l st = Outcome.returned (s, st)) ∧
      (∀ ndebug e, Label.get_text ndebug l st ≠ Outcome.failed e)) ∧
    Label.check (Label.new_anonymous (run Registry.init ops)).1
      (Label.new_anonymous (run Registry.init ops)).2 = false ∧
    Label.get_text false (Label.new_anonymous (run Registry.init ops)).1
      (Label.new_anonymous (run Registry.init ops)).2 = Outcome.aborted := by
  refine ⟨fun l st => ⟨?_, fun nd s h => get_text_of_find nd l st s h, ?_⟩,
    ?_⟩
  · cases h : Label.check l st <;> simp [Label.get_text, h]
  · intro nd e
    unfold Label.get_text
    split <;> simp
  · rw [allocs_append] at hn
    simp only [allocs, Op.allocates, if_true] at hn
    have h0 := (reach_consistent ops (by omega)).1
    have hnext := consistent_next_lt h0 (by omega)
    have hu := consistent_unnamed h0 (allocs Registry.init ops) (by omega)
    have hc : Label.check (Label.new_anonymous (run Registry.init ops)).1
        (Label.new_anonymous (run Registry.init ops)).2 = false := by
      simp [Label.check, Label.new_anonymous, hnext, hu]
    exact ⟨hc, (get_text_unnamed_assert _ _ hc).1⟩

theorem get_text_aborts_iff_witness :
    allocs Registry.init ([Op.named "L1"] ++ [Op.anonymous]) ≤ UINT64_MOD ∧
    ((∀ (l : Label) (st : Registry),
      (Label.get_text false l st = Outcome.aborted ↔
        Label.check l st = false) ∧
      (∀ ndebug s, StdMap.find st.val2label_ l.val_ = some s →
        Label.get_text ndebug l st = Outcome.returned (s, st)) ∧
      (∀ ndebug e, Label.get_text ndebug l st ≠ Outcome.failed e)) ∧
    Label.check (Label.new_anonymous (run Registry.init [Op.named "L1"])).1
      (Label.new_anonymous (run Registry.init [Op.named "L1"])).2 = false ∧
    Label.get_text false
      (Label.new_anonymous (run Registry.init [Op.named "L1"])).1
      (Label.new_anonymous (run Registry.init [Op.named "L1"])).2 =
      Outcome.aborted) :=
  ⟨by decide, get_text_aborts_iff [Op.named "L1"] (by decide)⟩

/-- C6, as stated, fails: the first anonymous label has identity 0; after
`2 ^ 64 - 1` more anonymous labels, `Label("x")` takes identity 0 and `check`
is true for the anonymous label. -/
theorem anonymous_named_after_wrap :
    (Label.new_anonymous Registry.init).1 = ⟨0⟩ ∧
    Label.check (Label.new_anonymous Registry.init).1
      (run Registry.init
        (Op.anonymous :: List.replicate (UINT64_MOD - 1) Op.anonymous ++
          [Op.named "x"])) = true := by
  rw [run_append, run_wrap_anonymous]
  decide

/-- C6 (amended): in every reachable registry state `check` is true for a
label (or a copy of it) exactly when its identity was returned by an earlier
`Label(const std::string&)` call; and a label returned by `Label()` has
`check` false after any further calls, when the whole call sequence takes at
most `2 ^ 64` values from the counter. -/
theorem check_iff_named (ops rest : List Op)
    (hn : allocs Registry.init (ops ++ Op.anonymous :: rest) ≤ UINT64_MOD) :
    (∀ (calls : List Op) (l : Label),
      (Label.check l (run Registry.init calls) = true ↔
        l ∈ namedLabels Registry.init calls) ∧
      Label.check (Label.copy l) (run Registry.init calls) =
        Label.check l (run Registry.init calls)) ∧
    Label.check (Label.new_anonymous (run Registry.init ops)).1
      (run Registry.init (ops ++ Op.anonymous :: rest)) = false := by
  refine ⟨fun calls l => ⟨?_, rfl⟩, ?_⟩
  · have h := (run_names_closed calls Registry.init names_closed_init l).2
    rw [h]
    simp [Label.check, Registry.init, StdMap.find]
  · rw [allocs_append] at hn
    simp only [allocs, Op.allocates, if_true] at hn
    have h0 := (reach_consistent ops (by omega)).1
    have hnext := consistent_next_lt h0 (by omega)
    have hu := consistent_unnamed h0 (allocs Registry.init ops) (by omega)
    have h1 := apply_consistent Op.anonymous _ _ h0
      (by simp only [Op.allocates, if_true]; omega)
    simp only [Op.allocates, if_true, Op.apply] at h1
    have hkeep := run_keeps_unnamed rest _ _ (allocs Registry.init ops) h1.1
      (by simp only [Op.apply] at hn; omega) (by omega)
      (by simpa [Label.new_anonymous] using hu)
    rw [run_append]
    simp only [run, Op.apply, Label.check]
    simp only [Label.new_anonymous, hnext] at hkeep ⊢
    rw [hkeep]
    rfl

theorem check_iff_named_witness :
    allocs Registry.init
        ([Op.named "L1"] ++ Op.anonymous :: [Op.named "L2"]) ≤ UINT64_MOD ∧
    ((∀ (calls : List Op) (l : Label),
      (Label.check l (run Registry.init calls) = true ↔
        l ∈ namedLabels Registry.init calls) ∧
      Label.check (Label.copy l) (run Registry.init calls) =
        Label.check l (run Registry.init calls)) ∧
    Label.check (Label.new_anonymous (run Registry.init [Op.named "L1"])).1
      (run Registry.init
        ([Op.named "L1"] ++ Op.anonymous :: [Op.named "L2"])) = false) :=
  ⟨by decide,
   check_iff_named [Op.named "L1"] [Op.named "L2"] (by decide)⟩

end x64asm

namespace x64

/-! ## Claims on operand sets -/

/-- C7 (code defect): at `a.x_ = 3`, `b.x_ = 5` each of `|`, `&`, `^`, `-`
returns the receiver, bit vector 3, where the bitwise OR, AND, XOR and
AND-NOT are 7, 1, 6 and 2. -/
theorem opset_binary_ops_are_placeholders :
    ((OpSet.or ⟨3⟩ ⟨5⟩).bits = 3 ∧
      Spec.union (OpSet.bits ⟨3⟩) (OpSet.bits ⟨5⟩) = 7) ∧
    ((OpSet.and ⟨3⟩ ⟨5⟩).bits = 3 ∧
      Spec.intersect (OpSet.bits ⟨3⟩) (OpSet.bits ⟨5⟩) = 1) ∧
    ((OpSet.xor ⟨3⟩ ⟨5⟩).bits = 3 ∧
      Spec.symmetric_difference (OpSet.bits ⟨3⟩) (OpSet.bits ⟨5⟩) = 6) ∧
    ((OpSet.sub ⟨3⟩ ⟨5⟩).bits = 3 ∧
      Spec.difference (OpSet.bits ⟨3⟩) (OpSet.bits ⟨5⟩) = 2) := by
  decide

/-- C8 (code defect): `operator==` answers true for `a.x_ = 0`, `b.x_ = 1`,
whose bit vectors differ. -/
theorem opset_eq_true_on_different_bits :
    OpSet.eq ⟨0⟩ ⟨1⟩ = true ∧ OpSet.bits ⟨0⟩ ≠ OpSet.bits ⟨1⟩ := by
  decide

/-- C9 (code defect): at `a.x_ = 5`, `operator~` returns `a` itself, bit
vector 5, and not its bit-flip; `a | ~a` is 5, not the universe, and `a & ~a`
is 5, not the empty set. -/
theorem opset_compl_is_placeholder :
    ((OpSet.compl ⟨5⟩).bits = 5 ∧
      Spec.complement (OpSet.bits ⟨5⟩) = 4294967290) ∧
    ((OpSet.or ⟨5⟩ (OpSet.compl ⟨5⟩)).bits = 5 ∧
      (OpSet.or ⟨5⟩ (OpSet.compl ⟨5⟩)).bits ≠ Spec.univ) ∧
    ((OpSet.and ⟨5⟩ (OpSet.compl ⟨5⟩)).bits = 5 ∧
      (OpSet.and ⟨5⟩ (OpSet.compl ⟨5⟩)).bits ≠ Spec.empty) := by
  decide

/-- C10 (code defect): at `a.x_ = 1`, `b.x_ = 2`, `a | b` and `a & b` are
bit vector 1 while `b | a` and `b & a` are bit vector 2. -/
theorem opset_or_and_not_commutative :
    (OpSet.or ⟨1⟩ ⟨2⟩).bits ≠ (OpSet.or ⟨2⟩ ⟨1⟩).bits ∧
    (OpSet.and ⟨1⟩ ⟨2⟩).bits ≠ (OpSet.and ⟨2⟩ ⟨1⟩).bits := by
  decide

end x64

namespace x64

/-- C11: for all operand sets `a`, `b`, `a - b` and `a & ~b` hold the same
bit vector (both operators return their receiver `a`). -/
theorem opset_sub_eq_and_compl (a b : OpSet) :
    (OpSet.sub a b).bits = (OpSet.and a (OpSet.compl b)).bits ∧
    OpSet.sub a b = OpSet.and a (OpSet.compl b) :=
  ⟨rfl, rfl⟩

/-- C12 (code defect): `operator!=` and `operator==` both answer true for the
same pair, here `S` with `x_ = 3` against `~S` and against itself. -/
theorem opset_ne_and_eq_both_true :
    (OpSet.ne ⟨3⟩ (OpSet.compl ⟨3⟩) = true ∧
      OpSet.eq ⟨3⟩ (OpSet.compl ⟨3⟩) = true) ∧
    (OpSet.ne ⟨3⟩ ⟨3⟩ = true ∧ OpSet.eq ⟨3⟩ ⟨3⟩ = true) ∧
    OpSet.ne ⟨3⟩ ⟨3⟩ ≠ !(OpSet.eq ⟨3⟩ ⟨3⟩) := by
  decide

/-- C17: for all operand sets `a`, `b` and each of `&`, `|`, `^`, `-`: after
the compound form the receiver holds what the binary form returns for the old
receiver, the argument is unchanged, and the returned reference designates the
receiver, so the set seen through it is the receiver after the call. -/
theorem opset_compound_eq_binary (a b : OpSet) :
    ((OpSet.and_assign a b).receiver = OpSet.and a b ∧
      (OpSet.and_assign a b).argument = b ∧
      (OpSet.and_assign a b).returned = Ref.receiver ∧
      (OpSet.and_assign a b).value = (OpSet.and_assign a b).receiver) ∧
    ((OpSet.or_assign a b).receiver = OpSet.or a b ∧
      (OpSet.or_assign a b).argument = b ∧
      (OpSet.or_assign a b).returned = Ref.receiver ∧
      (OpSet.or_assign a b).value = (OpSet.or_assign a b).receiver) ∧
    ((OpSet.xor_assign a b).receiver = OpSet.xor a b ∧
      (OpSet.xor_assign a b).argument = b ∧
      (OpSet.xor_assign a b).returned = Ref.receiver ∧
      (OpSet.xor_assign a b).value = (OpSet.xor_assign a b).receiver) ∧
    ((OpSet.sub_assign a b).receiver = OpSet.sub a b ∧
      (OpSet.sub_assign a b).argument = b ∧
      (OpSet.sub_assign a b).returned = Ref.receiver ∧
      (OpSet.sub_assign a b).value = (OpSet.sub_assign a b).receiver) :=
  ⟨⟨rfl, rfl, rfl, rfl⟩, ⟨rfl, rfl, rfl, rfl⟩, ⟨rfl, rfl, rfl, rfl⟩,
   ⟨rfl, rfl, rfl, rfl⟩⟩

end x64

namespace x64asm

/-! ## Frame and ordering claims on labels -/

/-- C13: when `s` is already a key of `label2val_`, `Label(s)` returns the
identity recorded for `s` and the registry after the call equals the registry
before it: same counter, same name table, same text table. -/
theorem new_named_present_frame (s : String) (st : Registry) (v : Nat)
    (h : StdMap.find st.label2val_ s = some v) :
    (Label.new_named s st).1 = ⟨v⟩ ∧
    (Label.new_named s st).2 = st ∧
    (Label.new_named s st).2.next_val_ = st.next_val_ ∧
    (Label.new_named s st).2.label2val_ = st.label2val_ ∧
    (Label.new_named s st).2.val2label_ = st.val2label_ := by
  rw [new_named_present s st v h]
  exact ⟨rfl, rfl, rfl, rfl, rfl⟩

theorem new_named_present_frame_witness :
    StdMap.find (run Registry.init [Op.named "foo", Op.anonymous]).label2val_
      "foo" = some 0 ∧
    ((Label.new_named "foo"
        (run Registry.init [Op.named "foo", Op.anonymous])).1 = ⟨0⟩ ∧
    (Label.new_named "foo"
        (run Registry.init [Op.named "foo", Op.anonymous])).2 =
      run Registry.init [Op.named "foo", Op.anonymous] ∧
    (Label.new_named "foo"
        (run Registry.init [Op.named "foo", Op.anonymous])).2.next_val_ =
      (run Registry.init [Op.named "foo", Op.anonymous]).next_val_ ∧
    (Label.new_named "foo"
        (run Registry.init [Op.named "foo", Op.anonymous])).2.label2val_ =
      (run Registry.init [Op.named "foo", Op.anonymous]).label2val_ ∧
    (Label.new_named "foo"
        (run Registry.init [Op.named "foo", Op.anonymous])).2.val2label_ =
      (run Registry.init [Op.named "foo", Op.anonymous]).val2label_) :=
  ⟨by decide,
   new_named_present_frame "foo"
     (run Registry.init [Op.named "foo", Op.anonymous]) 0 (by decide)⟩

/-- C15: labels compare, order and hash by identity alone: `==` holds exactly
for equal `val_`, `!=` is its negation, `<` is `<` on `val_` and exactly one
of `a < b`, `a == b`, `b < a` holds, `hash`, `std::hash` and the conversion to
`uint64_t` return `val_`, and equal labels have equal hashes. -/
theorem label_compare_by_identity (a b : Label) :
    (a.eq b = true ↔ a.val_ = b.val_) ∧
    a.ne b = !(a.eq b) ∧
    (a.lt b = true ↔ a.val_ < b.val_) ∧
    ((a.lt b = true ∧ a.eq b = false ∧ b.lt a = false) ∨
      (a.lt b = false ∧ a.eq b = true ∧ b.lt a = false) ∨
      (a.lt b = false ∧ a.eq b = false ∧ b.lt a = true)) ∧
    a.hash = a.val_ ∧
    Label.std_hash a = a.val_ ∧
    a.toUInt64 = a.val_ ∧
    (a.eq b = true → a.hash = b.hash ∧ Label.std_hash a = Label.std_hash b) := by
  refine ⟨by simp [Label.eq], rfl, by simp [Label.lt], ?_, rfl, rfl, rfl, ?_⟩
  · simp only [Label.lt, Label.eq, decide_eq_true_eq, decide_eq_false_iff_not]
    omega
  · intro h
    have hv : a.val_ = b.val_ := by simpa [Label.eq] using h
    simp [Label.std_hash, Label.hash, hv]

/-- C16: `read_att` fails on every stream, label and registry: on return the
fail flag is set (so the stream tests as failed), the unread input and the
other flags are as before, and the label and the registry are unchanged. -/
theorem read_att_always_fails (l : Label) (st : Registry) (is : IStream) :
    (l.read_att st is).1.failbit = true ∧
    (l.read_att st is).1.fail = true ∧
    (l.read_att st is).1.unread = is.unread ∧
    (l.read_att st is).1.eofbit = is.eofbit ∧
    (l.read_att st is).1.badbit = is.badbit ∧
    (l.read_att st is).2.1 = l ∧
    (l.read_att st is).2.2 = st := by
  simp [Label.read_att, IStream.setstate_failbit, IStream.fail]

/-- C18, as stated, fails: after `2 ^ 64 - 1` anonymous labels the next
`Label()` returns `2 ^ 64 - 1` and leaves the counter at 0, not at the
returned value plus one. -/
theorem new_anonymous_counter_wraps :
    (Label.new_anonymous (run Registry.init
      (List.replicate (UINT64_MOD - 1) Op.anonymous))).1.val_ =
      UINT64_MOD - 1 ∧
    (Label.new_anonymous (run Registry.init
      (List.replicate (UINT64_MOD - 1) Op.anonymous))).2.next_val_ ≠
    (Label.new_anonymous (run Registry.init
      (List.replicate (UINT64_MOD - 1) Op.anonymous))).1.val_ + 1 := by
  rw [run_anonymous_replicate _ _ (by decide)]
  decide

/-- C18 (amended): in every registry state `Label()` leaves both tables as
they were and returns the pre-call counter value; the counter afterwards is
that value plus one modulo `2 ^ 64`: that value plus one when the pre-call
counter is below `2 ^ 64 - 1`, and 0 when it is `2 ^ 64 - 1`. -/
theorem new_anonymous_frame (st : Registry) :
    (Label.new_anonymous st).2.label2val_ = st.label2val_ ∧
    (Label.new_anonymous st).2.val2label_ = st.val2label_ ∧
    (Label.new_anonymous st).1.val_ = st.next_val_ ∧
    (Label.new_anonymous st).2.next_val_ =
      (st.next_val_ + 1) % UINT64_MOD ∧
    (st.next_val_ + 1 < UINT64_MOD →
      (Label.new_anonymous st).2.next_val_ = st.next_val_ + 1) ∧
    (st.next_val_ + 1 = UINT64_MOD →
      (Label.new_anonymous st).2.next_val_ = 0) := by
  refine ⟨rfl, rfl, rfl, rfl, fun h => Nat.mod_eq_of_lt h, fun h => ?_⟩
  simp only [Label.new_anonymous, h, Nat.mod_self]

theorem new_anonymous_frame_witness :
    (run Registry.init [Op.named "L1"]).next_val_ + 1 < UINT64_MOD ∧
    (Label.new_anonymous (run Registry.init [Op.named "L1"])).2.next_val_ =
      (run Registry.init [Op.named "L1"]).next_val_ + 1 :=
  ⟨by decide,
   (new_anonymous_frame (run Registry.init [Op.named "L1"])).2.2.2.2.1
     (by decide)⟩

/-- C20, as stated, fails under `NDEBUG`: for the anonymous label created
after `Label("L1")`, identity 1, `check` is false; `get_text` and `write_att`
each insert the entry `(1, "")` into `val2label_`, and `check` is true in the
registry they leave. -/
theorem unnamed_query_inserts :
    (Label.new_anonymous (run Registry.init [Op.named "L1"])).1 = ⟨1⟩ ∧
    (Label.new_anonymous (run Registry.init [Op.named "L1"])).2 =
      ⟨[("L1", 0)], [(0, "L1")], 2⟩ ∧
    Label.check ⟨1⟩ ⟨[("L1", 0)], [(0, "L1")], 2⟩ = false ∧
    Label.get_text true ⟨1⟩ ⟨[("L1", 0)], [(0, "L1")], 2⟩ =
      Outcome.returned ("", ⟨[("L1", 0)], [(0, "L1"), (1, "")], 2⟩) ∧
    Label.write_att true ⟨1⟩ ⟨[("L1", 0)], [(0, "L1")], 2⟩ "jmp " =
      Outcome.returned ("jmp ", ⟨[("L1", 0)], [(0, "L1"), (1, "")], 2⟩) ∧
    Label.check ⟨1⟩ ⟨[("L1", 0)], [(0, "L1"), (1, "")], 2⟩ = true := by
  decide

/-- C20 (amended): for every registry state and label, in either build:
when `check` is true, the `val2label_[val_]` access of `get_text` and
`write_att` finds the key and inserts nothing, `get_text` returns the recorded
text and `write_att` appends it to the sink, both leaving the counter and both
tables as they were, so `check` answers the same afterwards.  When `check` is
false and assertions are compiled in, both calls abort before the access. -/
theorem queries_read_only (ndebug : Bool) (l : Label) (st : Registry)
    (os : String) :
    (l.check st = true →
      (StdMap.index st.val2label_ l.val_ "").2 = st.val2label_ ∧
      ∃ s, StdMap.find st.val2label_ l.val_ = some s ∧
        l.get_text ndebug st = Outcome.returned (s, st) ∧
        l.write_att ndebug st os = Outcome.returned (os ++ s, st)) ∧
    (l.check st = true → ∀ r,
      (l.get_text ndebug st = Outcome.returned r ∨
        l.write_att ndebug st os = Outcome.returned r) →
      r.2.next_val_ = st.next_val_ ∧ r.2.label2val_ = st.label2val_ ∧
      r.2.val2label_ = st.val2label_ ∧ l.check r.2 = l.check st) ∧
    (l.check st = false →
      l.get_text false st = Outcome.aborted ∧
      l.write_att false st os = Outcome.aborted) := by
  cases hf : StdMap.find st.val2label_ l.val_ with
  | none =>
    have hc : l.check st = false := by simp [Label.check, hf]
    have ha := get_text_unnamed_assert l st hc
    simp [hc, ha.1, ha.2 os]
  | some s =>
    have hc : l.check st = true := by simp [Label.check, hf]
    have hg := get_text_of_find ndebug l st s hf
    have hw := write_att_of_find ndebug l st s os hf
    refine ⟨fun _ => ⟨?_, s, rfl, hg, hw⟩, ?_, ?_⟩
    · rw [StdMap.index_of_find _ _ _ _ hf]
    · intro _ r hr
      rw [hg, hw] at hr
      rcases hr with hr | hr <;>
        · cases hr
          exact ⟨rfl, rfl, rfl, rfl⟩
    · simp [hc]

theorem queries_read_only_witness :
    Label.check ⟨0⟩ (run Registry.init [Op.named "L1", Op.anonymous]) =
      true ∧
    ((StdMap.index
        (run Registry.init [Op.named "L1", Op.anonymous]).val2label_
        (⟨0⟩ : Label).val_ "").2 =
      (run Registry.init [Op.named "L1", Op.anonymous]).val2label_ ∧
    ∃ s, StdMap.find
        (run Registry.init [Op.named "L1", Op.anonymous]).val2label_
        (⟨0⟩ : Label).val_ = some s ∧
      Label.get_text true ⟨0⟩
        (run Registry.init [Op.named "L1", Op.anonymous]) =
        Outcome.returned
          (s, run Registry.init [Op.named "L1", Op.anonymous]) ∧
      Label.write_att true ⟨0⟩
        (run Registry.init [Op.named "L1", Op.anonymous]) "jmp " =
        Outcome.returned
          ("jmp " ++ s, run Registry.init [Op.named "L1", Op.anonymous])) :=
  ⟨by decide,
   (queries_read_only true ⟨0⟩
     (run Registry.init [Op.named "L1", Op.anonymous]) "jmp ").1
     (by decide)⟩

end x64asm

namespace x64asm

/-! ## The counter and the registry invariant -/

theorem allocs_prefix_le (st : Registry) (xs ys : List Op) :
    allocs st xs ≤ allocs st (xs ++ ys) := by
  rw [allocs_append]
  exact Nat.le_add_right _ _

theorem prefix_counter (xs : List Op)
    (h : allocs Registry.init xs < UINT64_MOD) :
    (run Registry.init xs).next_val_ = allocs Registry.init xs :=
  consistent_next_lt (reach_consistent xs (Nat.le_of_lt h)).1 h

theorem apply_allocates (op : Op) (st : Registry)
    (h : op.allocates st = true) :
    (op.apply st).1.val_ = st.next_val_ ∧
      (op.apply st).2.next_val_ = (st.next_val_ + 1) % UINT64_MOD := by
  cases op with
  | anonymous => exact ⟨rfl, rfl⟩
  | named t =>
    cases ht : StdMap.find st.label2val_ t with
    | some w => simp [Op.allocates, ht] at h
    | none => simp [Op.apply, new_named_absent t st ht]

/-- C14, as stated, fails: after `2 ^ 64 - 1` anonymous labels the counter is
`2 ^ 64 - 1`, and the next allocation brings it down to 0. -/
theorem counter_decreases_at_wrap :
    (run Registry.init
      (List.replicate (UINT64_MOD - 1) Op.anonymous)).next_val_ =
      UINT64_MOD - 1 ∧
    (run Registry.init
      (List.replicate (UINT64_MOD - 1) Op.anonymous ++
        [Op.anonymous])).next_val_ = 0 := by
  rw [run_append, run_anonymous_replicate _ _ (by decide)]
  decide

/-- C14 (amended): along every call sequence that takes fewer than `2 ^ 64`
values from the counter, the counter never decreases, each allocation returns
the current counter value and increases the counter by one, and two different
allocations never return the same identity. -/
theorem counter_monotone (ops : List Op)
    (hn : allocs Registry.init ops < UINT64_MOD) :
    (∀ xs ys zs, ops = xs ++ ys ++ zs →
      (run Registry.init xs).next_val_ ≤
        (run Registry.init (xs ++ ys)).next_val_) ∧
    (∀ xs op ys, ops = xs ++ op :: ys →
      op.allocates (run Registry.init xs) = true →
      (op.apply (run Registry.init xs)).1.val_ =
        (run Registry.init xs).next_val_ ∧
      (op.apply (run Registry.init xs)).2.next_val_ =
        (run Registry.init xs).next_val_ + 1) ∧
    (∀ xs op ys op' zs, ops = xs ++ op :: (ys ++ op' :: zs) →
      op.allocates (run Registry.init xs) = true →
      op'.allocates (run Registry.init (xs ++ op :: ys)) = true →
      (op.apply (run Registry.init xs)).1 ≠
        (op'.apply (run Registry.init (xs ++ op :: ys))).1) := by
  refine ⟨?_, ?_, ?_⟩
  · intro xs ys zs e
    subst e
    have h2 : allocs Registry.init (xs ++ ys) < UINT64_MOD :=
      Nat.lt_of_le_of_lt (allocs_prefix_le _ _ zs) hn
    have h1 : allocs Registry.init xs < UINT64_MOD :=
      Nat.lt_of_le_of_lt (allocs_prefix_le _ _ ys) h2
    rw [prefix_counter xs h1, prefix_counter _ h2]
    exact allocs_prefix_le _ _ _
  · intro xs op ys e hal
    subst e
    rw [allocs_append] at hn
    simp only [allocs, hal, if_true] at hn
    have h1 : allocs Registry.init xs < UINT64_MOD := by omega
    have ha := apply_allocates op _ hal
    refine ⟨ha.1, ?_⟩
    rw [ha.2, prefix_counter xs h1]
    exact Nat.mod_eq_of_lt (by omega)
  · intro xs op ys op' zs e hal hal'
    subst e
    have e2 : xs ++ op :: (ys ++ op' :: zs) = (xs ++ op :: ys) ++ op' :: zs := by
      simp
    rw [e2] at hn
    have h2 : allocs Registry.init (xs ++ op :: ys) < UINT64_MOD :=
      Nat.lt_of_le_of_lt (allocs_prefix_le _ _ _) hn
    have h2' := h2
    rw [allocs_append] at h2'
    simp only [allocs, hal, if_true] at h2'
    have h1 : allocs Registry.init xs < UINT64_MOD := by omega
    have ha := (apply_allocates op _ hal).1
    have ha' := (apply_allocates op' _ hal').1
    rw [prefix_counter xs h1] at ha
    rw [prefix_counter _ h2, allocs_append] at ha'
    simp only [allocs, hal, if_true] at ha'
    intro e
    rw [e] at ha
    omega

theorem counter_monotone_witness :
    allocs Registry.init [Op.named "L1", Op.anonymous, Op.named "L1"] <
      UINT64_MOD ∧
    ((∀ xs ys zs,
      [Op.named "L1", Op.anonymous, Op.named "L1"] = xs ++ ys ++ zs →
      (run Registry.init xs).next_val_ ≤
        (run Registry.init (xs ++ ys)).next_val_) ∧
    (∀ xs op ys,
      [Op.named "L1", Op.anonymous, Op.named "L1"] = xs ++ op :: ys →
      op.allocates (run Registry.init xs) = true →
      (op.apply (run Registry.init xs)).1.val_ =
        (run Registry.init xs).next_val_ ∧
      (op.apply (run Registry.init xs)).2.next_val_ =
        (run Registry.init xs).next_val_ + 1) ∧
    (∀ xs op ys op' zs,
      [Op.named "L1", Op.anonymous, Op.named "L1"] =
        xs ++ op :: (ys ++ op' :: zs) →
      op.allocates (run Registry.init xs) = true →
      op'.allocates (run Registry.init (xs ++ op :: ys)) = true →
      (op.apply (run Registry.init xs)).1 ≠
        (op'.apply (run Registry.init (xs ++ op :: ys))).1)) :=
  ⟨by decide,
   counter_monotone [Op.named "L1", Op.anonymous, Op.named "L1"]
     (by decide)⟩

/-- C19, as stated, fails: `Label("a")` gives identity 0 the text "a"; after
`2 ^ 64 - 1` anonymous labels and `Label("b")`, the name table still maps "a"
to 0 while the text table maps 0 to "b". -/
theorem tables_not_inverse_after_wrap :
    StdMap.find (run Registry.init [Op.named "a"]).val2label_ 0 = some "a" ∧
    StdMap.find (run Registry.init
      (Op.named "a" :: List.replicate (UINT64_MOD - 1) Op.anonymous ++
        [Op.named "b"])).label2val_ "a" = some 0 ∧
    StdMap.find (run Registry.init
      (Op.named "a" :: List.replicate (UINT64_MOD - 1) Op.anonymous ++
        [Op.named "b"])).val2label_ 0 = some "b" := by
  rw [run_wrap_renamed]
  decide

/-- C19 (amended): along every call sequence from the initial registry that
takes fewer than `2 ^ 64` values from the counter, the two tables are inverse
to each other, every identity recorded in either table is strictly below the
counter, and a text recorded for an identity stays recorded for it after any
further calls of the sequence. -/
theorem registry_invariant (ops rest : List Op)
    (hn : allocs Registry.init (ops ++ rest) < UINT64_MOD) :
    (∀ s v, StdMap.find (run Registry.init ops).label2val_ s = some v ↔
      StdMap.find (run Registry.init ops).val2label_ v = some s) ∧
    (∀ s v, StdMap.find (run Registry.init ops).label2val_ s = some v →
      v < (run Registry.init ops).next_val_) ∧
    (∀ v s, StdMap.find (run Registry.init ops).val2label_ v = some s →
      v < (run Registry.init ops).next_val_) ∧
    (∀ v s, StdMap.find (run Registry.init ops).val2label_ v = some s →
      StdMap.find (run Registry.init (ops ++ rest)).val2label_ v =
        some s) := by
  have h1 : allocs Registry.init ops < UINT64_MOD :=
    Nat.lt_of_le_of_lt (allocs_prefix_le _ _ rest) hn
  have hc := (reach_consistent ops (Nat.le_of_lt h1)).1
  have hc' := (reach_consistent (ops ++ rest) (Nat.le_of_lt hn)).1
  rw [prefix_counter ops h1]
  refine ⟨hc.inverse, ?_, hc.bound, ?_⟩
  · intro s v h
    exact hc.bound v s ((hc.inverse s v).1 h)
  · intro v s h
    have hk := run_keeps_name rest _ s v ((hc.inverse s v).2 h)
    rw [← run_append] at hk
    exact (hc'.inverse s v).1 hk

theorem registry_invariant_witness :
    allocs Registry.init ([Op.named "L1", Op.anonymous] ++ [Op.named "L2"]) <
      UINT64_MOD ∧
    ((∀ s v,
      StdMap.find (run Registry.init
        [Op.named "L1", Op.anonymous]).label2val_ s = some v ↔
      StdMap.find (run Registry.init
        [Op.named "L1", Op.anonymous]).val2label_ v = some s) ∧
    (∀ s v,
      StdMap.find (run Registry.init
        [Op.named "L1", Op.anonymous]).label2val_ s = some v →
      v < (run Registry.init [Op.named "L1", Op.anonymous]).next_val_) ∧
    (∀ v s,
      StdMap.find (run Registry.init
        [Op.named "L1", Op.anonymous]).val2label_ v = some s →
      v < (run Registry.init [Op.named "L1", Op.anonymous]).next_val_) ∧
    (∀ v s,
      StdMap.find (run Registry.init
        [Op.named "L1", Op.anonymous]).val2label_ v = some s →
      StdMap.find (run Registry.init
        ([Op.named "L1", Op.anonymous] ++ [Op.named "L2"])).val2label_ v =
        some s)) :=
  ⟨by decide,
   registry_invariant [Op.named "L1", Op.anonymous] [Op.named "L2"]
     (by decide)⟩

end x64asm
